import Mathlib

/-!
Shallow embedding of `src/hw01.py`, an interactive address-book manager.

Python strings are modelled as Lean `String` (list of characters); the
Python predicates `str.isalpha` / `str.isdigit` and the method `str.lower`
are modelled on their ASCII fragment (`Char.isAlpha`, `Char.isDigit`,
`Char.toLower`), which is the fragment that the validation rules of the program are
about.  Python exceptions are modelled by an explicit exception type
`PyExc` and `Except`-returning functions; in-place mutation is modelled by
explicit state passing (a mutated `Record` is returned, and the enclosing
`AddressBook` entry is updated at the same key, mirroring the aliasing of
the Python dict entry to the mutated object).
-/

/-- The Python exception classes that the handlers of the program distinguish. -/
inductive PyExc where
  | valueError (msg : String)
  | keyError
  | indexError
  | attributeError
  | eofError
deriving DecidableEq, Repr

/-- Python `str.lower()` (ASCII fragment): lower-case every character. -/
def pyLower (s : String) : String := ⟨s.data.map Char.toLower⟩

/-- Python `str.isalpha()` (ASCII fragment): non-empty and all alphabetic. -/
def pyIsalpha (s : String) : Bool := !s.data.isEmpty && s.data.all Char.isAlpha

/-- Python `str.isdigit()` (ASCII fragment): non-empty and all decimal digits. -/
def pyIsdigit (s : String) : Bool := !s.data.isEmpty && s.data.all Char.isDigit

/-- Tokenizer for Python `str.split()` with no separator: `cur` holds the
(reversed) characters of the token being read. -/
def pyTokens : List Char → List Char → List (List Char)
  | [], cur => if cur.isEmpty then [] else [cur.reverse]
  | c :: cs, cur =>
    if c.isWhitespace then
      if cur.isEmpty then pyTokens cs [] else cur.reverse :: pyTokens cs []
    else pyTokens cs (c :: cur)

/-- Python `str.split()` with no separator: split on whitespace runs,
dropping empty pieces. -/
def pySplit (s : String) : List String :=
  (pyTokens s.data []).map (fun l => ⟨l⟩)

/-- Embeds `class Name(Field)`: a stored contact name (the `value` attribute). -/
structure Name where
  value : String
deriving DecidableEq, Repr

/-- Embeds `Name.__init__`: lower-case the input, then require it to be purely
alphabetic; raises `ValueError` otherwise. -/
def Name.init (value : String) : Except PyExc Name :=
  let v := pyLower value
  if !pyIsalpha v then
    .error (.valueError "Name must contain only alphabetic characters.")
  else
    .ok ⟨v⟩

/-- Embeds `class Phone(Field)`: a stored phone number (the `value` attribute). -/
structure Phone where
  value : String
deriving DecidableEq, Repr

/-- Embeds `Phone.__init__`: require `value.isdigit()` and length 10; raises
`ValueError` otherwise. -/
def Phone.init (value : String) : Except PyExc Phone :=
  if !pyIsdigit value || value.length != 10 then
    .error (.valueError "Phone number must contain 10 digits.")
  else
    .ok ⟨value⟩

/-- Embeds `class Record`: a contact name plus an ordered list of phones. -/
structure Record where
  name : Name
  phones : List Phone
deriving DecidableEq, Repr

/-- Embeds `Record.__init__(name)`: validates the name, starts with no phones. -/
def Record.init (name : String) : Except PyExc Record :=
  (Name.init name).map fun n => ⟨n, []⟩

/-- Embeds `Record.add_phone`: validate and append at the end of the list. -/
def Record.add_phone (r : Record) (phone : String) : Except PyExc Record :=
  (Phone.init phone).map fun p => { r with phones := r.phones ++ [p] }

/-- Helper for `Record.remove_phone`: drop the first phone whose value is
`phone`; `none` when no phone matches. -/
def removeFirst (phone : String) : List Phone → Option (List Phone)
  | [] => none
  | p :: ps =>
    if p.value = phone then some ps
    else (removeFirst phone ps).map (fun l => p :: l)

/-- Embeds `Record.remove_phone`: remove the first phone equal to `phone`; raises
`ValueError("Phone number not found")` when absent. -/
def Record.remove_phone (r : Record) (phone : String) : Except PyExc Record :=
  match removeFirst phone r.phones with
  | some ps => .ok { r with phones := ps }
  | none => .error (.valueError "Phone number not found")

/-- Helper for `Record.edit_phone`: overwrite, in place and without any
validation, the value of the first phone equal to `oldPhone`. -/
def editFirst (oldPhone newPhone : String) : List Phone → Option (List Phone)
  | [] => none
  | p :: ps =>
    if p.value = oldPhone then some (⟨newPhone⟩ :: ps)
    else (editFirst oldPhone newPhone ps).map (fun l => p :: l)

/-- Embeds `Record.edit_phone`: set `p.value = new_phone` on the first matching
phone (no re-validation); raises `ValueError("Phone number not found")`
when `old_phone` is absent. -/
def Record.edit_phone (r : Record) (oldPhone newPhone : String) : Except PyExc Record :=
  match editFirst oldPhone newPhone r.phones with
  | some ps => .ok { r with phones := ps }
  | none => .error (.valueError "Phone number not found")

/-- Embeds `Record.find_phone()` with no argument: all phone values in order. -/
def Record.find_phone_all (r : Record) : List String :=
  r.phones.map (fun p => p.value)

/-- Embeds `Record.find_phone(phone)`: first matching value, else `ValueError`. -/
def Record.find_phone (r : Record) (phone : String) : Except PyExc String :=
  match r.phones.find? (fun p => p.value = phone) with
  | some p => .ok p.value
  | none => .error (.valueError "Phone number not found")

/-- Embeds `Record.__str__`. -/
def Record.toStr (r : Record) : String :=
  let numPhones := r.phones.length
  let phoneWord := if numPhones = 1 then "phone" else "phones"
  let nm := r.name.value
  let joined := String.intercalate ", " (r.phones.map (fun p => p.value))
  s!"Contact name: {nm}, {phoneWord}: {joined}"

/-- Embeds `class AddressBook(UserDict)`: the underlying dict, modelled as an
insertion-ordered association list with unique keys (Python dict). -/
structure AddressBook where
  data : List (String × Record)
deriving DecidableEq, Repr

/-- Python `dict.get`: value at the key, or `None`. -/
def dictGet : List (String × Record) → String → Option Record
  | [], _ => none
  | (k', v') :: rest, k => if k' = k then some v' else dictGet rest k

/-- Python `dict[k] = v`: overwrite in place, or append a new entry. -/
def dictSet : List (String × Record) → String → Record → List (String × Record)
  | [], k, v => [(k, v)]
  | (k', v') :: rest, k, v =>
    if k' = k then (k, v) :: rest else (k', v') :: dictSet rest k v

/-- Python `del dict[k]`: `none` models the `KeyError` on a missing key. -/
def dictDel : List (String × Record) → String → Option (List (String × Record))
  | [], _ => none
  | (k', v') :: rest, k =>
    if k' = k then some rest
    else (dictDel rest k).map (fun l => (k', v') :: l)

/-- Embeds `AddressBook.add_record`: store under the own (already
normalized) name value of the record. -/
def AddressBook.add_record (b : AddressBook) (record : Record) : AddressBook :=
  ⟨dictSet b.data record.name.value record⟩

/-- Embeds `AddressBook.find`: `self.data.get(name)` — exact key lookup. -/
def AddressBook.find (b : AddressBook) (name : String) : Option Record :=
  dictGet b.data name

/-- Embeds `AddressBook.delete`: `del self.data[name]`; `KeyError` when absent. -/
def AddressBook.delete (b : AddressBook) (name : String) : Except PyExc AddressBook :=
  match dictDel b.data name with
  | some d => .ok ⟨d⟩
  | none => .error .keyError

/-- Embeds the translation that the `input_error` decorator applies to a
caught exception to obtain the returned message string. -/
def input_error_msg : PyExc → String
  | .keyError => "Enter name."
  | .valueError e => e
  | .indexError => "Enter the argument for the command."
  | _ => "Invalid command."

/-- Embeds `parse_input`: split on whitespace; `IndexError` on an all-whitespace
line (`parts[0]`); the command token is lower-cased. -/
def parse_input (user_input : String) : Except PyExc (String × List String) :=
  match pySplit user_input with
  | [] => .error .indexError
  | cmd :: args => .ok (pyLower cmd, args)

/-- The phone-adding loop inside `add_contact`: phones are appended one at
a time onto the (aliased, in-place mutated) record, so the phones before
the first invalid one stay appended when a later one raises. -/
def addPhonesGo (r : Record) : List String → Record × Option PyExc
  | [] => (r, none)
  | phone :: rest =>
    match r.add_phone phone with
    | .ok r' => addPhonesGo r' rest
    | .error e => (r, some e)

/-- Embeds `add_contact(args, address_book)` (wrapped in `input_error`): returns
the printed message and the resulting book state. -/
def add_contact (args : List String) (book : AddressBook) : String × AddressBook :=
  match args with
  | name :: phone1 :: rest =>
    let phones := phone1 :: rest
    match book.find name with
    | some record =>
      let res := addPhonesGo record phones
      let book' : AddressBook := ⟨dictSet book.data name res.1⟩
      match res.2 with
      | none => (s!"Phone number(s) added to contact \x27{name}\x27.", book')
      | some e => (input_error_msg e, book')
    | none =>
      match Record.init name with
      | .error e => (input_error_msg e, book)
      | .ok record =>
        let res := addPhonesGo record phones
        match res.2 with
        | none => ("Contact added.", book.add_record res.1)
        | some e => (input_error_msg e, book)
  | _ =>
    (input_error_msg (.valueError "Give me name and at least one phone number, separated by spaces."), book)

/-- Embeds `change_contact(args, address_book)` (wrapped in `input_error`): the
interactive sub-prompt reads one more input line.  Returns the message,
the resulting book, how many input lines were consumed (0 or 1), and the
lines printed by the sub-prompt before the message.  A missing contact
makes `record.phones` raise `AttributeError` (caught by the bare
`except` of the decorator); an exhausted input stream makes `input()` raise
`EOFError` (likewise caught by the bare `except`). -/
def change_contact (args : List String) (book : AddressBook) (inp : List String) :
    String × AddressBook × Nat × List String :=
  match args with
  | [name, new_phone] =>
    match book.find name with
    | none => (input_error_msg .attributeError, book, 0, [])
    | some record =>
      let header := s!"Available phone numbers for contact {name}:"
      let listing := record.phones.enum.map fun ip =>
        let i := toString ip.1
        let v := ip.2.value
        s!"{i}: {v}"
      let printed := header :: listing
      match inp with
      | [] => (input_error_msg .eofError, book, 0, printed)
      | chosen :: _ =>
        match record.phones.enum.find? (fun ip => toString ip.1 = chosen) with
        | none => ("Invalid phone number. Please enter a valid number.", book, 1, printed)
        | some ip =>
          let old_phone := ip.2.value
          match record.remove_phone old_phone with
          | .error e => (input_error_msg e, book, 1, printed)
          | .ok record1 =>
            match record1.add_phone new_phone with
            | .error e => (input_error_msg e, ⟨dictSet book.data name record1⟩, 1, printed)
            | .ok record2 =>
              ("Contact updated.", ⟨dictSet book.data name record2⟩, 1, printed)
  | _ =>
    if args.length < 2 then
      (input_error_msg (.valueError "Please provide both name and new phone number."), book, 0, [])
    else
      (input_error_msg (.valueError "Please provide the contact name and the new phone number only."), book, 0, [])

/-- Embeds `show_phone(args, address_book)` (wrapped in `input_error`). -/
def show_phone (args : List String) (book : AddressBook) : String :=
  match args with
  | [] => "Please provide the name of the contact or type \x27phone <contact_name>\x27."
  | name :: _ =>
    match book.find name with
    | some record =>
      let phones := record.find_phone_all
      let joined := String.intercalate ", " phones
      if phones.length = 1 then
        s!"The phone number for contact \x27{name}\x27 is: {joined}."
      else
        s!"The phone numbers for contact \x27{name}\x27 are: {joined}."
    | none => s!"Contact \x27{name}\x27 not found."

/-- Embeds `show_all_contacts(address_book)` (wrapped in `input_error`). -/
def show_all_contacts (book : AddressBook) : String :=
  if book.data.isEmpty then "No contacts found."
  else String.intercalate "\n" (book.data.map (fun kv => kv.2.toStr))

/-- Embeds `process_input(command, args, address_book)`: the dispatcher.  Returns
the message, the book, the number of extra input lines consumed by the
`change` sub-prompt, and the lines it printed. -/
def process_input (command : String) (args : List String) (book : AddressBook)
    (inp : List String) : String × AddressBook × Nat × List String :=
  if command = "hello" then ("How can I help you?", book, 0, [])
  else if command = "add" then
    let res := add_contact args book
    (res.1, res.2, 0, [])
  else if command = "change" then change_contact args book inp
  else if command = "phone" then (show_phone args book, book, 0, [])
  else if command = "all" then (show_all_contacts book, book, 0, [])
  else ("Invalid command.", book, 0, [])

/-- How a run of the `while True` loop in `main` ended. -/
inductive Termination where
  /-- A `close`/`exit` line was read: `print("Good bye!"); break`. -/
  | goodbye
  /-- An exception escaped the loop body (only `parse_input` can raise
  one there) and was caught by the `input_error` decorator on `main`
  itself: the session ends with the message as the return value of `main`. -/
  | errorExit (msg : String)
  /-- The input stream was exhausted at the top-of-loop `input()` call
  (`EOFError`, likewise ending the session through the decorator). -/
  | eofExit
deriving DecidableEq, Repr

/-- The `while True` loop of `main`, run over a list of input lines.
Returns the lines printed inside the loop, how the loop ended, and the
input lines left unread when it ended.  The `fuel` argument only bounds
the recursion depth; every iteration consumes at least one input line, so
any fuel of at least the number of input lines gives the same run (see
`main_loop_go_fuel_irrelevant`), and the fuel-exhausted fallback (which
coincides with the end-of-input case) is never reached. -/
def main_loop_go : Nat → AddressBook → List String → List String × Termination × List String
  | _, _, [] => ([], .eofExit, [])
  | 0, _, _ => ([], .eofExit, [])
  | fuel + 1, book, line :: rest =>
    match parse_input line with
    | .error e => ([], .errorExit (input_error_msg e), rest)
    | .ok (command, args) =>
      if command = "close" ∨ command = "exit" then
        (["Good bye!"], .goodbye, rest)
      else
        let res := process_input command args book rest
        let next := main_loop_go fuel res.2.1 (rest.drop res.2.2.1)
        (res.2.2.2 ++ res.1 :: next.1, next.2.1, next.2.2)

/-- The `while True` loop of `main` on a list of input lines. -/
def main_loop (book : AddressBook) (inp : List String) :
    List String × Termination × List String :=
  main_loop_go inp.length book inp

/-! ### Derived predicates -/

/-- A phone string passes `Phone.__init__` validation. -/
def phoneOk (s : String) : Prop := pyIsdigit s = true ∧ s.length = 10

instance (s : String) : Decidable (phoneOk s) := by unfold phoneOk; infer_instance

/-- A name string passes `Name.__init__` validation (after lower-casing). -/
def nameOk (s : String) : Prop := pyIsalpha s = true

instance (s : String) : Decidable (nameOk s) := by unfold nameOk; infer_instance

/-- The invariant claimed by the spec: every phone stored in a record is a
string that passes the 10-digit validation. -/
def phones_valid (r : Record) : Bool :=
  r.phones.all (fun p => pyIsdigit p.value && (p.value.length == 10))

/-- The keys of the underlying dict are pairwise distinct (every
`AddressBook` reachable through the operations of the program satisfies it). -/
def keysNodup (b : AddressBook) : Prop := (b.data.map Prod.fst).Nodup

instance (b : AddressBook) : Decidable (keysNodup b) := by unfold keysNodup; infer_instance

/-! ### Basic facts about the embedded operations -/

theorem phone_init_ok {s : String} (h : phoneOk s) : Phone.init s = .ok ⟨s⟩ := by
  simp [Phone.init, h.1, h.2]

theorem phone_init_err {s : String} (h : ¬ phoneOk s) :
    Phone.init s = .error (.valueError "Phone number must contain 10 digits.") := by
  rw [phoneOk, not_and_or] at h
  rcases h with h | h
  · simp [Phone.init, Bool.eq_false_iff.mpr h]
  · simp [Phone.init, h]

theorem phone_init_ok_iff (s : String) : Phone.init s = .ok ⟨s⟩ ↔ phoneOk s := by
  constructor
  · intro h
    by_contra hc
    rw [phone_init_err hc] at h
    exact Except.noConfusion h
  · exact phone_init_ok

theorem add_phone_ok_iff (r r' : Record) (s : String) :
    r.add_phone s = .ok r' ↔
      phoneOk s ∧ r' = { r with phones := r.phones ++ [⟨s⟩] } := by
  constructor
  · intro h
    by_cases hs : phoneOk s
    · rw [Record.add_phone, phone_init_ok hs] at h
      exact ⟨hs, (Except.ok.injEq _ _ |>.mp h).symm⟩
    · rw [Record.add_phone, phone_init_err hs] at h
      exact absurd h (by simp [Except.map])
  · rintro ⟨hs, rfl⟩
    rw [Record.add_phone, phone_init_ok hs]
    rfl

theorem removeFirst_eq_none_iff (v : String) (l : List Phone) :
    removeFirst v l = none ↔ ∀ p ∈ l, p.value ≠ v := by
  induction l with
  | nil => simp [removeFirst]
  | cons p ps ih =>
    by_cases h : p.value = v
    · simp [removeFirst, h]
    · simp [removeFirst, h, ih]

theorem removeFirst_sublist (v : String) (l l' : List Phone)
    (h : removeFirst v l = some l') : l'.Sublist l := by
  induction l generalizing l' with
  | nil => exact absurd h (by simp [removeFirst])
  | cons p ps ih =>
    by_cases hp : p.value = v
    · rw [removeFirst, if_pos hp, Option.some_inj] at h
      exact h ▸ List.Sublist.cons p (List.Sublist.refl ps)
    · rw [removeFirst, if_neg hp, Option.map_eq_some'] at h
      obtain ⟨l'', h1, h2⟩ := h
      exact h2 ▸ List.Sublist.cons₂ p (ih l'' h1)

theorem removeFirst_length (v : String) (l l' : List Phone)
    (h : removeFirst v l = some l') : l'.length + 1 = l.length := by
  induction l generalizing l' with
  | nil => exact absurd h (by simp [removeFirst])
  | cons p ps ih =>
    by_cases hp : p.value = v
    · rw [removeFirst, if_pos hp, Option.some_inj] at h
      simp [← h]
    · rw [removeFirst, if_neg hp, Option.map_eq_some'] at h
      obtain ⟨l'', h1, h2⟩ := h
      simp [← h2, ih l'' h1]

theorem removeFirst_spec (v : String) (pre post : List Phone)
    (hpre : ∀ p ∈ pre, p.value ≠ v) :
    removeFirst v (pre ++ ⟨v⟩ :: post) = some (pre ++ post) := by
  induction pre with
  | nil => simp [removeFirst]
  | cons p ps ih =>
    have hp : p.value ≠ v := hpre p (by simp)
    have ih' := ih (fun q hq => hpre q (by simp [hq]))
    simp only [List.cons_append, removeFirst, if_neg hp, List.append_eq] at ih' ⊢
    rw [ih', Option.map_some']

theorem editFirst_mem (o n : String) (l l' : List Phone)
    (h : editFirst o n l = some l') : ∀ p ∈ l', p ∈ l ∨ p = ⟨n⟩ := by
  induction l generalizing l' with
  | nil => exact absurd h (by simp [editFirst])
  | cons q qs ih =>
    by_cases hq : q.value = o
    · rw [editFirst, if_pos hq, Option.some_inj] at h
      intro p hp
      rcases List.mem_cons.mp (h ▸ hp) with h1 | h1
      · exact Or.inr h1
      · exact Or.inl (List.mem_cons_of_mem q h1)
    · rw [editFirst, if_neg hq, Option.map_eq_some'] at h
      obtain ⟨l'', h1, h2⟩ := h
      intro p hp
      rcases List.mem_cons.mp (h2 ▸ hp) with h3 | h3
      · exact Or.inl (h3 ▸ List.mem_cons_self q qs)
      · rcases ih l'' h1 p h3 with h4 | h4
        · exact Or.inl (List.mem_cons_of_mem q h4)
        · exact Or.inr h4

theorem addPhonesGo_ok (r : Record) (l : List String)
    (h : ∀ s ∈ l, phoneOk s) :
    addPhonesGo r l = ({ r with phones := r.phones ++ l.map Phone.mk }, none) := by
  induction l generalizing r with
  | nil => simp [addPhonesGo]
  | cons s rest ih =>
    have hs : phoneOk s := h s (by simp)
    rw [addPhonesGo, Record.add_phone, phone_init_ok hs]
    show addPhonesGo { r with phones := r.phones ++ [⟨s⟩] } rest = _
    rw [ih _ (fun q hq => h q (by simp [hq]))]
    simp [List.append_assoc]

theorem addPhonesGo_fail (r : Record) (good : List String) (bad : String)
    (rest : List String) (hgood : ∀ s ∈ good, phoneOk s) (hbad : ¬ phoneOk bad) :
    addPhonesGo r (good ++ bad :: rest) =
      ({ r with phones := r.phones ++ good.map Phone.mk },
       some (.valueError "Phone number must contain 10 digits.")) := by
  induction good generalizing r with
  | nil =>
    rw [List.nil_append, addPhonesGo, Record.add_phone, phone_init_err hbad]
    simp [Except.map]
  | cons s gs ih =>
    have hs : phoneOk s := hgood s (by simp)
    rw [List.cons_append, addPhonesGo, Record.add_phone, phone_init_ok hs]
    show addPhonesGo { r with phones := r.phones ++ [⟨s⟩] } (gs ++ bad :: rest) = _
    rw [ih _ (fun q hq => hgood q (by simp [hq]))]
    simp [List.append_assoc]

theorem dictGet_dictSet_self (d : List (String × Record)) (k : String) (v : Record) :
    dictGet (dictSet d k v) k = some v := by
  induction d with
  | nil => simp [dictGet, dictSet]
  | cons kv rest ih =>
    obtain ⟨k', v'⟩ := kv
    by_cases h : k' = k
    · simp [dictSet, dictGet, h]
    · simp [dictSet, dictGet, h, ih]

theorem dictGet_eq_none_iff (d : List (String × Record)) (k : String) :
    dictGet d k = none ↔ ∀ kv ∈ d, kv.1 ≠ k := by
  induction d with
  | nil => simp [dictGet]
  | cons kv rest ih =>
    obtain ⟨k', v'⟩ := kv
    by_cases h : k' = k
    · simp [dictGet, h]
    · simp [dictGet, h, ih]

theorem dictDel_eq_none_iff (d : List (String × Record)) (k : String) :
    dictDel d k = none ↔ dictGet d k = none := by
  induction d with
  | nil => simp [dictDel, dictGet]
  | cons kv rest ih =>
    obtain ⟨k', v'⟩ := kv
    by_cases h : k' = k
    · simp [dictDel, dictGet, h]
    · simp [dictDel, dictGet, h, ih]

theorem dictDel_dictSet (d : List (String × Record)) (k : String) (v : Record)
    (h : (d.map Prod.fst).Nodup) :
    ∃ d', dictDel (dictSet d k v) k = some d' ∧ dictGet d' k = none := by
  induction d with
  | nil => exact ⟨[], by simp [dictSet, dictDel], by simp [dictGet]⟩
  | cons kv rest ih =>
    obtain ⟨k', v'⟩ := kv
    rw [List.map_cons, List.nodup_cons] at h
    by_cases hk : k' = k
    · subst hk
      refine ⟨rest, by simp [dictSet, dictDel], ?_⟩
      rw [dictGet_eq_none_iff]
      intro kv hkv heq
      apply h.1
      rw [← heq]
      exact List.mem_map.mpr ⟨kv, hkv, rfl⟩
    · obtain ⟨d', hd1, hd2⟩ := ih h.2
      exact ⟨(k', v') :: d', by simp [dictSet, dictDel, hk, hd1], by simp [dictGet, hk, hd2]⟩

/-- Here `Char.toLower` maps the ASCII letters onto the ASCII letters and fixes
everything else, so it preserves `Char.isAlpha`. -/
theorem toLower_isAlpha (c : Char) : (Char.toLower c).isAlpha = c.isAlpha := by
  simp only [Char.toLower]
  by_cases h : c.toNat ≥ 65 ∧ c.toNat ≤ 90
  · rw [if_pos h]
    obtain ⟨h1, h2⟩ := h
    conv_rhs => rw [← Char.ofNat_toNat c]
    revert h1 h2
    generalize c.toNat = n
    intro h1 h2
    interval_cases n <;> decide
  · rw [if_neg h]

theorem all_isAlpha_map_toLower (l : List Char) :
    (l.map Char.toLower).all Char.isAlpha = l.all Char.isAlpha := by
  induction l with
  | nil => rfl
  | cons c cs ih =>
    simp only [List.map_cons, List.all_cons]
    rw [toLower_isAlpha, ih]

/-- Lower-casing first does not change whether `isalpha` holds. -/
theorem pyIsalpha_pyLower (s : String) : pyIsalpha (pyLower s) = pyIsalpha s := by
  show (!(s.data.map Char.toLower).isEmpty && (s.data.map Char.toLower).all Char.isAlpha)
      = (!s.data.isEmpty && s.data.all Char.isAlpha)
  rw [all_isAlpha_map_toLower]
  cases s.data <;> rfl

theorem name_init_ok {s : String} (h : nameOk s) : Name.init s = .ok ⟨pyLower s⟩ := by
  have : pyIsalpha (pyLower s) = true := (pyIsalpha_pyLower s).trans h
  simp [Name.init, this]

theorem name_init_err {s : String} (h : ¬ nameOk s) :
    Name.init s = .error (.valueError "Name must contain only alphabetic characters.") := by
  have : pyIsalpha (pyLower s) = false :=
    (pyIsalpha_pyLower s).trans (Bool.eq_false_iff.mpr h)
  simp [Name.init, this]

theorem record_init_ok {s : String} (h : nameOk s) :
    Record.init s = .ok ⟨⟨pyLower s⟩, []⟩ := by
  rw [Record.init, name_init_ok h]
  rfl

theorem record_init_err {s : String} (h : ¬ nameOk s) :
    Record.init s = .error (.valueError "Name must contain only alphabetic characters.") := by
  rw [Record.init, name_init_err h]
  rfl

/-- Any fuel of at least the number of input lines produces the same run
of the loop, so the fuel choice of `main_loop` is canonical. -/
theorem main_loop_go_fuel_irrelevant :
    ∀ (f1 f2 : Nat) (book : AddressBook) (inp : List String),
      inp.length ≤ f1 → inp.length ≤ f2 →
      main_loop_go f1 book inp = main_loop_go f2 book inp := by
  intro f1
  induction f1 with
  | zero =>
    intro f2 book inp h1 _
    have hnil : inp = [] := List.eq_nil_of_length_eq_zero (Nat.le_zero.mp h1)
    subst hnil
    cases f2 <;> rfl
  | succ f ih =>
    intro f2 book inp h1 h2
    cases inp with
    | nil => cases f2 <;> rfl
    | cons line rest =>
      cases f2 with
      | zero => simp at h2
      | succ f2' =>
        cases hp : parse_input line with
        | error e => rw [main_loop_go, main_loop_go, hp]
        | ok ca =>
          obtain ⟨command, args⟩ := ca
          by_cases hc : command = "close" ∨ command = "exit"
          · simp only [main_loop_go, hp, if_pos hc]
          · simp only [main_loop_go, hp, if_neg hc]
            have hr : rest.length ≤ f := by
              have := h1
              simp only [List.length_cons] at this
              omega
            have hr2 : rest.length ≤ f2' := by
              have := h2
              simp only [List.length_cons] at this
              omega
            have hd : ∀ k : Nat, (rest.drop k).length ≤ f := by
              intro k; rw [List.length_drop]; omega
            have hd2 : ∀ k : Nat, (rest.drop k).length ≤ f2' := by
              intro k; rw [List.length_drop]; omega
            rw [ih f2' _ _ (hd _) (hd2 _)]

/-! ### The claims -/

/-- Claim C6: `Phone` construction succeeds exactly on strings of exactly 10
ASCII decimal digits, and fails with the invalid-format `ValueError`
("Phone number must contain 10 digits.") on every other string. -/
theorem C6_phone_validation (raw : String) :
    (Phone.init raw = .ok ⟨raw⟩ ↔
      (raw.data.length = 10 ∧ ∀ c ∈ raw.data, c.isDigit = true)) ∧
    (¬(raw.data.length = 10 ∧ ∀ c ∈ raw.data, c.isDigit = true) →
      Phone.init raw = .error (.valueError "Phone number must contain 10 digits.")) := by
  have hiff : phoneOk raw ↔ (raw.data.length = 10 ∧ ∀ c ∈ raw.data, c.isDigit = true) := by
    unfold phoneOk pyIsdigit
    rw [String.length]
    constructor
    · rintro ⟨h1, h2⟩
      rw [Bool.and_eq_true] at h1
      exact ⟨h2, fun c hc => List.all_eq_true.mp h1.2 c hc⟩
    · rintro ⟨h1, h2⟩
      refine ⟨?_, h1⟩
      rw [Bool.and_eq_true]
      refine ⟨?_, List.all_eq_true.mpr h2⟩
      cases hd : raw.data with
      | nil => rw [hd] at h1; simp at h1
      | cons _ _ => rfl
  exact ⟨(phone_init_ok_iff raw).trans hiff,
         fun h => phone_init_err (fun hp => h (hiff.mp hp))⟩

/-- Witness for claim C6 at the concrete invalid input "123". -/
theorem C6_phone_validation_witness :
    ¬(("123" : String).data.length = 10 ∧ ∀ c ∈ ("123" : String).data, c.isDigit = true) ∧
    Phone.init "123" = .error (.valueError "Phone number must contain 10 digits.") :=
  ⟨by decide, (C6_phone_validation "123").2 (by decide)⟩

/-- Claim C7: `Name` construction stores the lower-cased input, fails with
the invalid-format `ValueError` exactly when the input is empty or has a
non-alphabetic character, and is idempotent under case: "Bob" and "BOB"
both produce the stored value "bob". -/
theorem C7_name_validation (raw : String) :
    (∀ n, Name.init raw = .ok n → n.value = pyLower raw) ∧
    (Name.init raw = .error (.valueError "Name must contain only alphabetic characters.")
      ↔ (raw.data = [] ∨ ∃ c ∈ raw.data, c.isAlpha = false)) ∧
    (Name.init "Bob" = Name.init "BOB" ∧ Name.init "Bob" = .ok ⟨"bob"⟩) := by
  have hchar : ¬ nameOk raw ↔ (raw.data = [] ∨ ∃ c ∈ raw.data, c.isAlpha = false) := by
    unfold nameOk pyIsalpha
    constructor
    · intro h
      rcases Bool.and_eq_false_iff.mp (Bool.eq_false_iff.mpr h) with h1 | h1
      · left
        simpa using h1
      · right
        rcases List.all_eq_false.mp h1 with ⟨c, hc, hcf⟩
        exact ⟨c, hc, Bool.eq_false_iff.mpr hcf⟩
    · intro h hok
      rw [Bool.and_eq_true] at hok
      rcases h with h | ⟨c, hc, hcf⟩
      · rw [List.isEmpty_iff.mpr h] at hok
        exact absurd hok.1 (by simp)
      · rw [List.all_eq_true] at hok
        exact absurd (hok.2 c hc) (by simp [hcf])
  refine ⟨?_, ?_, rfl, rfl⟩
  · intro n hn
    by_cases hok : nameOk raw
    · rw [name_init_ok hok] at hn
      injection hn with hn
      rw [← hn]
    · rw [name_init_err hok] at hn
      exact Except.noConfusion hn
  · constructor
    · intro h
      refine hchar.mp (fun hok => ?_)
      rw [name_init_ok hok] at h
      exact Except.noConfusion h
    · intro h
      exact name_init_err (hchar.mpr h)

/-- Witness for claim C7: the empty name is rejected. -/
theorem C7_name_validation_witness :
    Name.init "" = .error (.valueError "Name must contain only alphabetic characters.") :=
  ((C7_name_validation "").2.1).mpr (Or.inl rfl)

/-- Claim C9: `remove_phone` removes exactly the first phone whose value
equals the argument (string equality; later duplicates and all other
phones are untouched), and raises the not-found `ValueError` exactly when
no stored phone has that value — in particular always on a record with no
phones. -/
theorem C9_remove_phone (r : Record) (phone : String) :
    (∀ pre post, (∀ p ∈ pre, p.value ≠ phone) →
      r.phones = pre ++ ⟨phone⟩ :: post →
      r.remove_phone phone = .ok { r with phones := pre ++ post }) ∧
    ((∀ p ∈ r.phones, p.value ≠ phone) →
      r.remove_phone phone = .error (.valueError "Phone number not found")) := by
  constructor
  · intro pre post hpre hsplit
    rw [Record.remove_phone, hsplit, removeFirst_spec phone pre post hpre]
  · intro hall
    rw [Record.remove_phone, (removeFirst_eq_none_iff phone r.phones).mpr hall]

/-- Witness for claim C9: removing "2222222222" from a record holding
[1111111111, 2222222222, 2222222222] drops only the first occurrence, and
removing from an empty record raises the not-found error. -/
theorem C9_remove_phone_witness :
    Record.remove_phone ⟨⟨"bob"⟩, [⟨"1111111111"⟩, ⟨"2222222222"⟩, ⟨"2222222222"⟩]⟩
        "2222222222" = .ok ⟨⟨"bob"⟩, [⟨"1111111111"⟩, ⟨"2222222222"⟩]⟩ ∧
    Record.remove_phone ⟨⟨"bob"⟩, []⟩ "0000000000" =
        .error (.valueError "Phone number not found") :=
  ⟨(C9_remove_phone ⟨⟨"bob"⟩, [⟨"1111111111"⟩, ⟨"2222222222"⟩, ⟨"2222222222"⟩]⟩
      "2222222222").1 [⟨"1111111111"⟩] [⟨"2222222222"⟩] (by decide) rfl,
   (C9_remove_phone ⟨⟨"bob"⟩, []⟩ "0000000000").2 (by decide)⟩

/-- Claim C1 fails on the code: `edit_phone` writes `new_phone` into the
record without any validation (`p.value = new_phone`), so a record that
holds only the valid phone 1234567890 ends up holding the 3-character
string "123" after `edit_phone("1234567890", "123")`, and the 10-digit
invariant is broken. -/
theorem C1_counterexample :
    ((Record.init "bob").bind (fun r => r.add_phone "1234567890")).bind
        (fun r => r.edit_phone "1234567890" "123") =
      .ok ⟨⟨"bob"⟩, [⟨"123"⟩]⟩ ∧
    phones_valid ⟨⟨"bob"⟩, [⟨"123"⟩]⟩ = false :=
  ⟨rfl, rfl⟩

/-- Claim C1 (amended): the 10-digit invariant is preserved by `add_phone`
and `remove_phone`, and by `edit_phone` only under the extra assumption
that the replacement string itself passes the 10-digit validation —
`edit_phone` performs no validation of its own, so a sequence containing
an `edit_phone` with an invalid `new_phone` breaks the invariant (see the
counterexample theorem). -/
theorem C1_phones_invariant (r : Record) (h : phones_valid r = true) :
    (∀ s r', r.add_phone s = .ok r' → phones_valid r' = true) ∧
    (∀ s r', r.remove_phone s = .ok r' → phones_valid r' = true) ∧
    (∀ oldp newp r', phoneOk newp → r.edit_phone oldp newp = .ok r' →
      phones_valid r' = true) := by
  have hmem : ∀ p ∈ r.phones, (pyIsdigit p.value && (p.value.length == 10)) = true :=
    List.all_eq_true.mp h
  have hok_mem : ∀ s, phoneOk s → (pyIsdigit s && (s.length == 10)) = true := by
    intro s hs
    rw [Bool.and_eq_true, beq_iff_eq]
    exact ⟨hs.1, hs.2⟩
  refine ⟨?_, ?_, ?_⟩
  · intro s r' hadd
    obtain ⟨hs, rfl⟩ := (add_phone_ok_iff r r' s).mp hadd
    rw [phones_valid, List.all_eq_true]
    intro p hp
    rcases List.mem_append.mp hp with hp | hp
    · exact hmem p hp
    · rw [List.mem_singleton.mp hp]
      exact hok_mem s hs
  · intro s r' hrem
    rw [Record.remove_phone] at hrem
    cases hrf : removeFirst s r.phones with
    | none => rw [hrf] at hrem; exact Except.noConfusion hrem
    | some ps =>
      rw [hrf] at hrem
      injection hrem with hrem
      rw [← hrem, phones_valid, List.all_eq_true]
      intro p hp
      exact hmem p ((removeFirst_sublist s r.phones ps hrf).subset hp)
  · intro oldp newp r' hnew hedit
    rw [Record.edit_phone] at hedit
    cases hef : editFirst oldp newp r.phones with
    | none => rw [hef] at hedit; exact Except.noConfusion hedit
    | some ps =>
      rw [hef] at hedit
      injection hedit with hedit
      rw [← hedit, phones_valid, List.all_eq_true]
      intro p hp
      rcases editFirst_mem oldp newp r.phones ps hef p hp with hp' | hp'
      · exact hmem p hp'
      · rw [hp']
        exact hok_mem newp hnew

/-- Witness for claim C1 (amended): editing 1234567890 to the valid
0987654321 keeps the invariant on a concrete record. -/
theorem C1_phones_invariant_witness :
    phones_valid ⟨⟨"bob"⟩, [⟨"1234567890"⟩]⟩ = true ∧
    phones_valid ⟨⟨"bob"⟩, [⟨"0987654321"⟩]⟩ = true :=
  ⟨by decide,
   (C1_phones_invariant ⟨⟨"bob"⟩, [⟨"1234567890"⟩]⟩ (by decide)).2.2
     "1234567890" "0987654321" ⟨⟨"bob"⟩, [⟨"0987654321"⟩]⟩ (by decide) rfl⟩

/-- Claim C2 fails on the code: `AddressBook.find` is `self.data.get(name)`,
an exact-key lookup with no normalization of its argument.  A record
created from "Bob" is stored under the normalized key "bob", and
`find("BOB")` — whose lower-casing equals that stored name — returns
`None` instead of the record. -/
theorem C2_counterexample :
    Record.init "Bob" = .ok ⟨⟨"bob"⟩, []⟩ ∧
    pyLower "BOB" = "bob" ∧
    ((AddressBook.mk []).add_record ⟨⟨"bob"⟩, []⟩).find "BOB" = none :=
  ⟨rfl, rfl, rfl⟩

/-- Claim C2 (amended): `find` is an exact-match lookup on the stored
(already normalized) name value: after `add_record r`, `find` returns `r`
on exactly the string `r.name.value`, and any other string — including a
differently-cased spelling of the same name — yields the non-error result
`none`; `none` on an arbitrary book means precisely that no entry is
stored under that exact string. -/
theorem C2_find_exact (b : AddressBook) (r : Record) (s : String)
    (h : s ≠ r.name.value) :
    ((b.add_record r).find r.name.value = some r) ∧
    (((AddressBook.mk []).add_record r).find s = none) ∧
    (b.find s = none ↔ ∀ kv ∈ b.data, kv.1 ≠ s) := by
  refine ⟨?_, ?_, ?_⟩
  · exact dictGet_dictSet_self b.data r.name.value r
  · show dictGet (dictSet [] r.name.value r) s = none
    rw [dictSet, dictGet, if_neg (fun heq => h heq.symm)]
    rfl
  · exact dictGet_eq_none_iff b.data s

/-- Witness for claim C2 (amended) at the record stored under "bob" and the
probe string "BOB". -/
theorem C2_find_exact_witness :
    ((AddressBook.mk []).add_record ⟨⟨"bob"⟩, []⟩).find "bob" = some ⟨⟨"bob"⟩, []⟩ ∧
    ((AddressBook.mk []).add_record ⟨⟨"bob"⟩, []⟩).find "BOB" = none :=
  ⟨(C2_find_exact ⟨[]⟩ ⟨⟨"bob"⟩, []⟩ "BOB" (by decide)).1,
   (C2_find_exact ⟨[]⟩ ⟨⟨"bob"⟩, []⟩ "BOB" (by decide)).2.1⟩

/-- Claim C5 fails on the code: for `change` with an unknown name,
`address_book.find(name)` returns `None` and `record.phones` then raises
`AttributeError`, which is caught by the bare `except` of the decorator — the
reported message is the generic "Invalid command." fallback (the same
string an unrecognized command yields), not the missing-key message
"Enter name." that the `KeyError` branch would produce. -/
theorem C5_counterexample :
    (change_contact ["bob", "1234567890"] ⟨[]⟩ ["0"]).1 = "Invalid command." ∧
    input_error_msg .keyError = "Enter name." ∧
    (change_contact ["bob", "1234567890"] ⟨[]⟩ ["0"]).1 ≠ input_error_msg .keyError ∧
    (process_input "nonsense" [] ⟨[]⟩ []).1 = "Invalid command." :=
  ⟨rfl, rfl, by decide, rfl⟩

/-- Claim C5 (amended): `change <name> <newPhone>` with no record for the
name fails with the generic invalid-command fallback message (via an
uncaught `AttributeError`, not a missing-key condition), and the
AddressBook is left unchanged. -/
theorem C5_change_missing_name (name np : String) (book : AddressBook)
    (inp : List String) (h : book.find name = none) :
    change_contact [name, np] book inp = ("Invalid command.", book, 0, []) := by
  simp only [change_contact, h]
  rfl

/-- Witness for claim C5 (amended) on the empty book. -/
theorem C5_change_missing_name_witness :
    change_contact ["bob", "1234567890"] ⟨[]⟩ ["0"] = ("Invalid command.", ⟨[]⟩, 0, []) :=
  C5_change_missing_name "bob" "1234567890" ⟨[]⟩ ["0"] rfl

/-- Claim C8: the `AddressBook` round-trip on any book whose keys are
distinct (every book the program builds is such): after `add_record r`,
`find` on the stored normalized name of `r` returns `r`; deleting that name
then succeeds and a subsequent `find` on it returns `none`; and `delete`
on any absent name fails with `KeyError` (the NotFound condition),
producing no new book state. -/
theorem C8_round_trip (b : AddressBook) (r : Record) (name : String)
    (h : keysNodup b) :
    ((b.add_record r).find r.name.value = some r) ∧
    (∃ b', (b.add_record r).delete r.name.value = .ok b' ∧
      b'.find r.name.value = none) ∧
    (b.find name = none → b.delete name = .error .keyError) := by
  refine ⟨?_, ?_, ?_⟩
  · exact dictGet_dictSet_self b.data r.name.value r
  · obtain ⟨d', h1, h2⟩ := dictDel_dictSet b.data r.name.value r h
    refine ⟨⟨d'⟩, ?_, h2⟩
    show AddressBook.delete ⟨dictSet b.data r.name.value r⟩ r.name.value = .ok ⟨d'⟩
    rw [AddressBook.delete]
    simp only [h1]
  · intro hn
    have hd : dictDel b.data name = none := (dictDel_eq_none_iff b.data name).mpr hn
    rw [AddressBook.delete]
    simp only [hd]

/-- Witness for claim C8 on a one-entry book. -/
theorem C8_round_trip_witness :
    (((AddressBook.mk [("alice", ⟨⟨"alice"⟩, []⟩)]).add_record ⟨⟨"bob"⟩, []⟩).find "bob"
        = some ⟨⟨"bob"⟩, []⟩) ∧
    (AddressBook.mk [("alice", ⟨⟨"alice"⟩, []⟩)]).delete "carol" = .error .keyError :=
  ⟨(C8_round_trip ⟨[("alice", ⟨⟨"alice"⟩, []⟩)]⟩ ⟨⟨"bob"⟩, []⟩ "carol" (by decide)).1,
   (C8_round_trip ⟨[("alice", ⟨⟨"alice"⟩, []⟩)]⟩ ⟨⟨"bob"⟩, []⟩ "carol" (by decide)).2.2 rfl⟩

/-- Claim C3: the claim is right about the dispatcher (handler errors are
caught per-handler and the loop continues) but the code has a fatal path
it denies: an all-whitespace input line makes `parts[0]` in `parse_input`
raise `IndexError` outside every handler decorator; only the decorator on
`main` itself catches it, so the session ends although no `close`/`exit`
was read — on input ["", "hello"] the loop stops at the empty first line
with "hello" still unread.  The second run shows the intended `close`
path for contrast: the loop stops exactly at "close", leaving the
remaining line unread. -/
theorem C3_empty_line_ends_loop :
    main_loop ⟨[]⟩ ["", "hello"] =
      ([], .errorExit "Enter the argument for the command.", ["hello"]) ∧
    main_loop ⟨[]⟩ ["hello", "close", "hello"] =
      (["How can I help you?", "Good bye!"], .goodbye, ["hello"]) :=
  ⟨rfl, rfl⟩

/-- Claim C4: when some phone of `add <name> <phone...>` fails the 10-digit
validation, the command reports the validation error; if a record for the
name existed, the valid phones listed before the first failing one remain
appended to it; if none existed, the book is unchanged (so no entry for
the name is inserted), and — when the name itself is well-formed, so that
the failure really is in the phone — the reported message is exactly the
phone-validation error. -/
theorem C4_add_first_invalid (name : String) (good : List String) (bad : String)
    (rest : List String) (book : AddressBook)
    (hgood : ∀ s ∈ good, phoneOk s) (hbad : ¬ phoneOk bad) :
    (∀ record, book.find name = some record →
      add_contact (name :: (good ++ bad :: rest)) book =
        ("Phone number must contain 10 digits.",
         ⟨dictSet book.data name
            { record with phones := record.phones ++ good.map Phone.mk }⟩)) ∧
    (book.find name = none →
      (add_contact (name :: (good ++ bad :: rest)) book).2 = book) ∧
    (book.find name = none → nameOk name →
      (add_contact (name :: (good ++ bad :: rest)) book).1 =
        "Phone number must contain 10 digits.") := by
  obtain ⟨p1, ps, hps⟩ : ∃ p1 ps, good ++ bad :: rest = p1 :: ps := by
    cases good with
    | nil => exact ⟨bad, rest, rfl⟩
    | cons g gs => exact ⟨g, gs ++ bad :: rest, rfl⟩
  have hgo : ∀ r0 : Record,
      addPhonesGo r0 (p1 :: ps) =
        ({ r0 with phones := r0.phones ++ good.map Phone.mk },
         some (.valueError "Phone number must contain 10 digits.")) := by
    intro r0
    rw [← hps]
    exact addPhonesGo_fail r0 good bad rest hgood hbad
  rw [hps]
  refine ⟨?_, ?_, ?_⟩
  · intro record hfind
    simp only [add_contact, hfind, hgo record]
    rfl
  · intro hfind
    by_cases hok : nameOk name
    · simp only [add_contact, hfind, record_init_ok hok, hgo]
    · simp only [add_contact, hfind, record_init_err hok]
  · intro hfind hok
    simp only [add_contact, hfind, record_init_ok hok, hgo]
    rfl

/-- Witness for claim C4: `add bob 1112223334 123 9998887776` on a book
where bob already holds one phone appends only 1112223334 and reports the
validation error. -/
theorem C4_add_first_invalid_witness :
    add_contact ["bob", "1112223334", "123", "9998887776"]
        ⟨[("bob", ⟨⟨"bob"⟩, [⟨"5556667778"⟩]⟩)]⟩ =
      ("Phone number must contain 10 digits.",
       ⟨[("bob", ⟨⟨"bob"⟩, [⟨"5556667778"⟩, ⟨"1112223334"⟩]⟩)]⟩) :=
  (C4_add_first_invalid "bob" ["1112223334"] "123" ["9998887776"]
      ⟨[("bob", ⟨⟨"bob"⟩, [⟨"5556667778"⟩]⟩)]⟩ (by decide) (by decide)).1
    ⟨⟨"bob"⟩, [⟨"5556667778"⟩]⟩ rfl

/-- Claim C10: in `change <name> <newPhone>` with an existing contact, a
valid index chosen at the sub-prompt and a `newPhone` failing the
10-digit validation, the old phone is removed first and `add_phone` then
raises: the command reports the validation error while the record stored
under the name has already lost one phone (its phones are a strict
sublist, one shorter), and `newPhone` was not added. -/
theorem C10_change_partial_mutation (book : AddressBook)
    (name new_phone chosen : String) (rest : List String)
    (record record1 : Record) (ip : Nat × Phone)
    (hfind : book.find name = some record)
    (hsel : record.phones.enum.find? (fun q => toString q.1 = chosen) = some ip)
    (hrem : record.remove_phone ip.2.value = .ok record1)
    (hnew : ¬ phoneOk new_phone) :
    (change_contact [name, new_phone] book (chosen :: rest)).1 =
      "Phone number must contain 10 digits." ∧
    (change_contact [name, new_phone] book (chosen :: rest)).2.1 =
      ⟨dictSet book.data name record1⟩ ∧
    record1.phones.Sublist record.phones ∧
    record1.phones.length + 1 = record.phones.length := by
  have hadd : record1.add_phone new_phone =
      .error (.valueError "Phone number must contain 10 digits.") := by
    rw [Record.add_phone, phone_init_err hnew]
    rfl
  have hps : ∃ ps, removeFirst ip.2.value record.phones = some ps ∧
      record1 = { record with phones := ps } := by
    rw [Record.remove_phone] at hrem
    cases hrf : removeFirst ip.2.value record.phones with
    | none => rw [hrf] at hrem; exact Except.noConfusion hrem
    | some ps =>
      rw [hrf] at hrem
      injection hrem with hrem
      exact ⟨ps, rfl, hrem.symm⟩
  obtain ⟨ps, hps1, hps2⟩ := hps
  have hchange : change_contact [name, new_phone] book (chosen :: rest) =
      ("Phone number must contain 10 digits.",
       ⟨dictSet book.data name record1⟩, 1,
       (s!"Available phone numbers for contact {name}:") ::
         record.phones.enum.map (fun q =>
           let i := toString q.1
           let v := q.2.value
           s!"{i}: {v}")) := by
    simp only [change_contact, hfind, hsel, hrem, hadd]
    rfl
  refine ⟨by rw [hchange], by rw [hchange], ?_, ?_⟩
  · rw [hps2]
    exact removeFirst_sublist ip.2.value record.phones ps hps1
  · rw [hps2]
    exact removeFirst_length ip.2.value record.phones ps hps1

/-- Witness for claim C10: changing the only stored phone of bob to "123" removes the
old phone and reports the validation error. -/
theorem C10_change_partial_mutation_witness :
    (change_contact ["bob", "123"] ⟨[("bob", ⟨⟨"bob"⟩, [⟨"1111111111"⟩]⟩)]⟩ ["0"]).1 =
      "Phone number must contain 10 digits." ∧
    (change_contact ["bob", "123"] ⟨[("bob", ⟨⟨"bob"⟩, [⟨"1111111111"⟩]⟩)]⟩ ["0"]).2.1 =
      ⟨[("bob", ⟨⟨"bob"⟩, []⟩)]⟩ := by
  have H := C10_change_partial_mutation ⟨[("bob", ⟨⟨"bob"⟩, [⟨"1111111111"⟩]⟩)]⟩
    "bob" "123" "0" [] ⟨⟨"bob"⟩, [⟨"1111111111"⟩]⟩ ⟨⟨"bob"⟩, []⟩ (0, ⟨"1111111111"⟩)
    rfl rfl rfl (by decide)
  exact ⟨H.1, H.2.1⟩
